import Mathlib

/-!
# Verification of the picobot reasoning core

A shallow embedding of the picobot agent core (Go) into Lean 4, together
with theorems settling the specification claims about it.

Modelling conventions:
* Go slices and maps become Lean lists (a session map becomes an
  association list; map-iteration order is fixed as list order).
* `float32`/`float64` values are modelled as exact rationals (`ℚ`);
  `float32` bit patterns and BLOB bytes are modelled as `Nat`s.  The
  claims proved over these functions are structural (error paths,
  padding, filtering, ordering, counting), and do not depend on
  floating-point rounding.
* Fallible Go functions return `Except String α`.
* Effectful code (the agent loop) is modelled as a pure function over an
  explicit state, with the LLM provider and the tool executor supplied
  as function-valued parameters of the environment.
-/

namespace Picobot

/-! ## Session manager (internal/session) -/

/-- `session.Message` from the Go source: role, content, RFC3339 timestamp. -/
structure Message where
  role : String
  content : String
  timestamp : String
deriving Repr, DecidableEq

/-- `session.MaxHistorySize`: the maximum number of messages kept in a session. -/
def MaxHistorySize : Nat := 50

/-- `session.Session`: a key and an ordered message history. -/
structure Session where
  key : String
  history : List Message
deriving Repr, DecidableEq

/-- `Session.Trim` from the Go source: if the history exceeds
`MaxHistorySize`, split off the oldest prefix, keep the most recent
`MaxHistorySize` messages, and return the discarded prefix.  The Go
method mutates the session and returns the prefix; here it returns both. -/
def Session.Trim (s : Session) : List Message × Session :=
  if s.history.length > MaxHistorySize then
    (s.history.take (s.history.length - MaxHistorySize),
     { s with history := s.history.drop (s.history.length - MaxHistorySize) })
  else
    ([], s)

/-- The in-memory effect of `SessionManager.Save`: `Save` trims the session
and then writes it to disk; the write is I/O and is not modelled. -/
def saveSession (s : Session) : Session :=
  (s.Trim).2

/-- `SessionManager.TrimAll`: trim every session, collecting the
discarded prefixes in iteration order. -/
def trimAllSessions (l : List Session) : List Message × List Session :=
  ((l.map Session.Trim).foldr (fun p acc => p.1 ++ acc) [],
   (l.map Session.Trim).map (·.2))

/-! ## Transport proxy (internal/channels, StartProxy) -/

/-- `chat.Outbound` (text-related fields). -/
structure Outbound where
  channel : String
  chatID : String
  content : String
deriving Repr, DecidableEq

/-- The per-transport outbound queues owned by the Hub. -/
structure ProxyState where
  telegramOut : List Outbound
  ntfyOut : List Outbound
deriving Repr, DecidableEq

/-- A non-blocking send on a bounded queue: enqueue if below capacity,
otherwise drop the message (the Go `select`/`default` idiom). -/
def trySend (cap : Nat) (q : List Outbound) (m : Outbound) : List Outbound :=
  if q.length < cap then q ++ [m] else q

/-- One dispatch step of `StartProxy`: a message dequeued from the generic
outbound queue is forwarded to the queue selected by its channel field;
unknown channels are dropped. -/
def proxyStep (cap : Nat) (st : ProxyState) (m : Outbound) : ProxyState :=
  if m.channel = "telegram" then
    { st with telegramOut := trySend cap st.telegramOut m }
  else if m.channel = "ntfy" then
    { st with ntfyOut := trySend cap st.ntfyOut m }
  else
    st

/-! ## Float32 blobs and the SQLite scalar functions (memory/persist) -/

/-- Decoding of an IEEE-754 binary32 bit pattern into an exact rational.
Normal and subnormal values are decoded exactly; the non-finite encodings
(exponent 255: infinities and NaNs) are outside the model and map to 0.
Models Go's `math.Float32frombits`. -/
def decodeF32 (bits : Nat) : ℚ :=
  let b : Nat := bits % 2 ^ 32
  let sign : Nat := b / 2 ^ 31
  let exp : Nat := b / 2 ^ 23 % 2 ^ 8
  let frac : Nat := b % 2 ^ 23
  let mag : ℚ :=
    if exp = 0 then (frac : ℚ) / 2 ^ 149
    else if exp = 255 then 0
    else ((2 ^ 23 + frac : Nat) : ℚ) * 2 ^ exp / 2 ^ 150
  if sign = 1 then -mag else mag

/-- `bytesToFloats` from the Go source: reinterpret a byte blob as a
little-endian `float32` array (four bytes per element; a trailing group
of fewer than four bytes cannot arise because callers check the length). -/
def bytesToFloats : List Nat → List ℚ
  | b0 :: b1 :: b2 :: b3 :: rest =>
      decodeF32 (b0 + 256 * (b1 + 256 * (b2 + 256 * b3))) :: bytesToFloats rest
  | _ => []

/-- `floatsToBytes` from the Go source: serialize `float32` values (here:
their bit patterns) as little-endian bytes, four per element. -/
def floatsToBytes : List Nat → List Nat
  | [] => []
  | f :: rest =>
      let b := f % 2 ^ 32
      b % 256 :: b / 256 % 256 :: b / 65536 % 256 :: b / 16777216 % 256 ::
        floatsToBytes rest

/-- The dot-product loop shared by both scalar functions:
`dot += float64(qVec[i] * rowVec[i])`, modelled with exact arithmetic. -/
def dot (a b : List ℚ) : ℚ :=
  (List.zipWith (· * ·) a b).sum

/-- Zero-padding of the shorter blob: `append(blob, make([]byte, n-len)...)`. -/
def zeroPadTo (x : List Nat) (n : Nat) : List Nat :=
  x ++ List.replicate (n - x.length) 0

/-- `cosineSimilarityScalar` from the Go source, on the BLOB/BLOB case:
reject lengths that are not whole float32s, zero-pad the shorter blob to
the longer, answer 0 for empty blobs, else the dot product. -/
def cosineSimilarityScalar (qBlob rowBlob : List Nat) : Except String ℚ :=
  if qBlob.length % 4 ≠ 0 ∨ rowBlob.length % 4 ≠ 0 then
    .error "blobs must contain whole float32 values"
  else
    let n := max qBlob.length rowBlob.length
    let q := zeroPadTo qBlob n
    let r := zeroPadTo rowBlob n
    if q.length = 0 ∨ r.length = 0 then .ok 0
    else .ok (dot (bytesToFloats q) (bytesToFloats r))

/-- `cosineDistanceScalar` from the Go source, on the BLOB/BLOB case.
Note the order of checks differs from `cosineSimilarityScalar`: the
empty-blob early return (distance 1) comes BEFORE the length-multiple-of-4
check. -/
def cosineDistanceScalar (qBlob rowBlob : List Nat) : Except String ℚ :=
  if qBlob.length = 0 ∨ rowBlob.length = 0 then .ok 1
  else if qBlob.length % 4 ≠ 0 ∨ rowBlob.length % 4 ≠ 0 then
    .error "BLOB length must be multiple of 4 (float32)"
  else
    let n := max qBlob.length rowBlob.length
    let q := zeroPadTo qBlob n
    let r := zeroPadTo rowBlob n
    if q.length = 0 ∨ r.length = 0 then .ok 1
    else .ok (1 - dot (bytesToFloats q) (bytesToFloats r))

/-! ## Persistent memory (memory/persist): NewPersistMemory, QueryHistory -/

/-- `memory.MemoryItem`, as filled by `QueryHistory` (role, text, timestamp,
similarity; `Kind` is left empty by the row scan). -/
structure MemoryItem where
  kind : String
  role : String
  text : String
  similarity : ℚ
  timestamp : String
deriving Repr, DecidableEq

/-- One row of the `history` table:
`(channel_id, role, content, timestamp, embedding BLOB)`. -/
structure MemRow where
  channel_id : String
  role : String
  content : String
  timestamp : String
  embedding : List Nat
deriving Repr, DecidableEq

/-- The query-relevant state of `memory.MemoryPersist`: the configured
threshold and topK, and the embedder (returning float32 bit patterns). -/
structure MemoryPersist where
  threshold : ℚ
  topk : Int
  embed : String → Except String (List Nat)

/-- The query-relevant fields of `config.MemoryConfig`. -/
structure MemoryConfig where
  threshold : ℚ
  topK : Int

/-- The configuration-defaulting logic of `NewPersistMemory`: a threshold
`≤ 0` becomes 0.87 and a topK `≤ 0` becomes 10 (the database and embedder
initialisation is I/O and not modelled). -/
def NewPersistMemory (cfg : MemoryConfig) (embed : String → Except String (List Nat)) :
    MemoryPersist :=
  { threshold := if cfg.threshold ≤ 0 then 87 / 100 else cfg.threshold
    topk := if cfg.topK ≤ 0 then 10 else cfg.topK
    embed := embed }

/-- Evaluation of `cosine_similarity(embedding, ?)` on each candidate row,
producing the selected columns; a scalar-function error aborts the query. -/
def computeSims (qBlob : List Nat) : List MemRow → Except String (List MemoryItem)
  | [] => .ok []
  | r :: rest =>
    match cosineSimilarityScalar r.embedding qBlob with
    | .error e => .error e
    | .ok sim =>
      match computeSims qBlob rest with
      | .error e => .error e
      | .ok items =>
        .ok ({ kind := "", role := r.role, text := r.content,
               similarity := sim, timestamp := r.timestamp } :: items)

/-- Non-increasing similarity order (the comparison behind
`ORDER BY similarity DESC`). -/
def memGE (a b : MemoryItem) : Prop := b.similarity ≤ a.similarity

instance : DecidableRel memGE :=
  fun a b => inferInstanceAs (Decidable (b.similarity ≤ a.similarity))

instance : IsTotal MemoryItem memGE :=
  ⟨fun a b => le_total b.similarity a.similarity⟩

instance : IsTrans MemoryItem memGE :=
  ⟨fun _ _ _ hab hbc => le_trans hbc hab⟩

/-- `MemoryPersist.QueryHistory` from the Go source, with the SQL modelled
relationally over the table rows: embed the query, default `topk ≤ 0` to the
configured value, restrict to the channel when `channelID ≠ ""`, keep rows
with `similarity >= threshold`, order by similarity descending, and take at
most `topk` results. -/
def QueryHistory (m : MemoryPersist) (rows : List MemRow)
    (channelID query : String) (topk : Int) : Except String (List MemoryItem) :=
  match m.embed query with
  | .error e => .error ("embedding query: " ++ e)
  | .ok emb =>
    let qBlob := floatsToBytes emb
    let topk2 : Int := if topk ≤ 0 then m.topk else topk
    let cand := if channelID = "" then rows
                else rows.filter (fun r => r.channel_id == channelID)
    match computeSims qBlob cand with
    | .error e => .error e
    | .ok items =>
      .ok ((List.insertionSort memGE
              (items.filter (fun it => decide (m.threshold ≤ it.similarity)))).take
            topk2.toNat)

/-! ## ONNX embedder chunking (memory/embed_onnx) -/

/-- Go's `unicode.IsSpace` on the ASCII/Latin-1 range (the word separator
used by `strings.Fields`). -/
def isUnicodeSpace (c : Char) : Bool :=
  c = ' ' ∨ c = '\t' ∨ c = '\n' ∨ c = '\x0b' ∨ c = '\x0c' ∨ c = '\r' ∨
    c = '\x85' ∨ c = '\xa0'

/-- Helper of `fields`: split a character stream into maximal non-space runs,
accumulating the current word reversed. -/
def splitWordsAux : List Char → List Char → List (List Char)
  | cur, [] => if cur = [] then [] else [cur.reverse]
  | cur, c :: cs =>
    if isUnicodeSpace c then
      if cur = [] then splitWordsAux [] cs
      else cur.reverse :: splitWordsAux [] cs
    else splitWordsAux (c :: cur) cs

/-- `strings.Fields`: the whitespace-separated words of a string. -/
def fields (s : String) : List String :=
  (splitWordsAux [] s.toList).map fun w => String.mk w

/-- The grouping underlying `splitIntoChunks`: successive word groups of
`maxWords` words (`words[i:i+maxWords]` for `i = 0, maxWords, …`).  The Go
loop advances `i` by `maxWords` and is only ever called with
`maxWords = 200`; the degenerate `maxWords = 0` (on which the Go loop would
not terminate) is out of scope. -/
def chunkWords (maxWords : Nat) : List String → List (List String)
  | [] => []
  | w :: ws => (w :: ws.take (maxWords - 1)) :: chunkWords maxWords (ws.drop (maxWords - 1))
termination_by ws => ws.length
decreasing_by
  simp only [List.length_cons, List.length_drop]
  omega

/-- `strings.Join(words, " ")`. -/
def joinSpace : List String → String
  | [] => ""
  | [w] => w
  | w :: ws => w ++ " " ++ joinSpace ws

/-- `splitIntoChunks` from the Go source: split the text into words and
join successive groups of at most `maxWords` words back into chunk texts. -/
def splitIntoChunks (text : String) (maxWords : Nat) : List String :=
  (chunkWords maxWords (fields text)).map joinSpace

/-- Element-wise vector addition (the inner accumulation loop). -/
def zipAdd (a b : List ℚ) : List ℚ := List.zipWith (· + ·) a b

/-- `averageEmbeddings` from the Go source: with a single embedding, a copy
of it; otherwise the element-wise sum of the embeddings whose dimension
matches the first (others are skipped with a warning), divided by the TOTAL
number of embeddings. -/
def averageEmbeddings (embeddings : List (List ℚ)) : List ℚ :=
  match embeddings with
  | [] => []
  | [e] => e
  | e0 :: _ :: _ =>
    let dim := e0.length
    (embeddings.foldl
        (fun acc emb => if emb.length = dim then zipAdd acc emb else acc)
        (List.replicate dim 0)).map
      (· / (embeddings.length : ℚ))

/-- `memory.ONNXEmbedder`: the inference engine (abstracted as a function
from chunk texts to chunk vectors, modelling `engine.EmbedBatch`) and the
chunking width. -/
structure ONNXEmbedder where
  engine : List String → Except String (List (List ℚ))
  chunkMaxWords : Nat

/-- `NewONNXEmbedder` sets `chunkMaxWords` to 200. -/
def NewONNXEmbedder (engine : List String → Except String (List (List ℚ))) : ONNXEmbedder :=
  { engine := engine, chunkMaxWords := 200 }

/-- `ONNXEmbedder.Embed` from the Go source: chunk the text, embed the batch
of chunks, fail when the batch is empty or its first vector is empty, and
otherwise return `averageEmbeddings` of the chunk vectors. -/
def ONNXEmbedder.Embed (e : ONNXEmbedder) (text : String) : Except String (List ℚ) :=
  let chunks := splitIntoChunks text e.chunkMaxWords
  match e.engine chunks with
  | .error err => .error ("failed to generate embedding for text: " ++ err)
  | .ok vec =>
    match vec with
    | [] => .error "no embeddings found in the response"
    | v0 :: _ => if v0.length = 0 then .error "no embeddings found in the response"
                 else .ok (averageEmbeddings vec)

/-- Modelled from the spec: "embed each chunk, then arithmetic-mean the
chunk vectors. Chunks of mismatched dimension are skipped ... and do not
contribute to the mean" — i.e. the mean over only the non-skipped vectors. -/
def specMeanNonSkipped (es : List (List ℚ)) : List ℚ :=
  let dim := (es.head?.getD []).length
  let keep := es.filter (fun e => e.length == dim)
  (keep.foldl zipAdd (List.replicate dim 0)).map (· / (keep.length : ℚ))

/-! ## Agent loop (internal/agent/loop.go) -/

/-- Go's regexp `\s` class: `[\t\n\f\r ]`. -/
def isSpaceRE (c : Char) : Bool :=
  c = ' ' ∨ c = '\t' ∨ c = '\n' ∨ c = '\x0c' ∨ c = '\r'

/-- ASCII lower-casing, modelling the case-insensitive `(?i)` comparison of
the letters of `remember` and `to` (the matched literals are ASCII). -/
def toLowerAscii (c : Char) : Char :=
  if 'A' ≤ c ∧ c ≤ 'Z' then Char.ofNat (c.toNat + 32) else c

/-- `strings.TrimSpace` on the character list: drop leading and trailing
whitespace. -/
def trimSpaceList (cs : List Char) : List Char :=
  ((cs.dropWhile isUnicodeSpace).reverse.dropWhile isUnicodeSpace).reverse

/-- `(.+)$` on the remaining characters: succeeds iff the remainder is
non-empty and contains no newline (Go's `.` does not match `\n` and `$`
anchors at end of text), capturing the whole remainder. -/
def matchDotPlusEnd (l : List Char) : Option (List Char) :=
  if l ≠ [] ∧ l.all (fun c => c ≠ '\n') then some l else none

/-- Backtracking for a greedy `\s+` followed by `(.+)$`: try consuming
`j+1, j, …, 1` whitespace characters. -/
def wsBacktrack : Nat → List Char → Option (List Char)
  | 0, _ => none
  | j + 1, l =>
    match matchDotPlusEnd (l.drop (j + 1)) with
    | some cap => some cap
    | none => wsBacktrack j l

/-- `\s+(.+)$`: the leading whitespace run is consumed greedily, then the
capture; on failure the engine backtracks to shorter whitespace. -/
def matchWsDotEnd (l : List Char) : Option (List Char) :=
  wsBacktrack (l.takeWhile isSpaceRE).length l

/-- `\s+to` (case-insensitive): since `t` is not whitespace, the greedy
`\s+` must consume exactly the maximal whitespace run, which must be
non-empty, followed by the letters `to`. -/
def matchWsTo (l : List Char) : Option (List Char) :=
  let k := (l.takeWhile isSpaceRE).length
  if k = 0 then none
  else
    match l.drop k with
    | t :: o :: rest =>
        if toLowerAscii t = 't' ∧ toLowerAscii o = 'o' then some rest else none
    | _ => none

/-- `(?:\s+to)?\s+(.+)$` after the literal `remember`: the optional group is
tried first (greedy `?`); if the rest of the pattern fails after it, the
engine retries without it. -/
def matchAfterRemember (l : List Char) : Option (List Char) :=
  match matchWsTo l with
  | some rest =>
    match matchWsDotEnd rest with
    | some cap => some cap
    | none => matchWsDotEnd l
  | none => matchWsDotEnd l

/-- The remember heuristic of the agent loop: match
`(?i)^remember(?:\s+to)?\s+(.+)$` against `strings.TrimSpace(content)` and
return the captured text. -/
def rememberMatch (content : String) : Option String :=
  let cs := trimSpaceList content.toList
  if (cs.take 8).map toLowerAscii = "remember".toList then
    (matchAfterRemember (cs.drop 8)).map fun cap => String.mk cap
  else none

/-- `providers.ToolCall`: id, tool name, and JSON arguments (abstracted as
their textual form). -/
structure ToolCall where
  id : String
  name : String
  arguments : String
deriving Repr, DecidableEq

/-- `providers.Message`: chat role, content, attached tool calls and the
tool-call id answered by a `tool` message. -/
structure PMessage where
  role : String
  content : String
  toolCalls : List ToolCall
  toolCallID : String
deriving Repr, DecidableEq

/-- `providers.ChatResponse`: assistant content and requested tool calls. -/
structure ProviderResponse where
  content : String
  hasToolCalls : Bool
  toolCalls : List ToolCall
deriving Repr, DecidableEq

/-- `chat.Inbound` (text-related fields). -/
structure Inbound where
  channel : String
  senderID : String
  chatID : String
  content : String
deriving Repr, DecidableEq

/-- The collaborators and configuration of `AgentLoop`, with the I/O-backed
parts abstracted as functions: the provider (`provider.Chat` as a function
of the accumulated message list), the tool registry (`tools.Execute` by tool
name and arguments), the context builder (`BuildMessages`, whose output
depends on workspace files and the clock and is kept opaque), the
file-memory context string, the iteration cap, and the persistent-memory
query outcome for this turn (`none` models `memoryPersist == nil`). -/
structure LoopEnv where
  provider : List PMessage → Except String ProviderResponse
  execTool : String → String → Except String String
  buildMessages : List Message → String → String → String → String →
    List MemoryItem → List PMessage
  memCtx : String
  maxIterations : Nat
  memoryQuery : Option (Except String (List MemoryItem))

/-- The inner per-response tool execution: run each requested call, turn an
execution error into a `"(tool error) "` message, record each result as a
`tool` message and remember the last result. -/
def execToolCalls (execTool : String → String → Except String String)
    (tcs : List ToolCall) (last : String) : List PMessage × String :=
  tcs.foldl
    (fun acc tc =>
      let res := match execTool tc.name tc.arguments with
        | .ok r => r
        | .error e => "(tool error) " ++ e
      (acc.1 ++ [⟨"tool", res, [], tc.id⟩], res))
    ([], last)

/-- Result of the tool-calling loop of `Run`: the final content (empty if
the iteration cap was reached), the last tool result, the number of
provider calls made, and the accumulated message list. -/
structure LoopOut where
  final : String
  last : String
  calls : Nat
  msgs : List PMessage
deriving Repr, DecidableEq

/-- The tool-calling loop of `AgentLoop.Run` (steps within
`for iteration < maxIterations`): call the provider; on error break with
the apology text; on tool calls append the assistant message and the tool
results and iterate; otherwise finish with the response content. -/
def toolLoopRun (env : LoopEnv) : Nat → List PMessage → String → LoopOut
  | 0, msgs, last => ⟨"", last, 0, msgs⟩
  | fuel + 1, msgs, last =>
    match env.provider msgs with
    | .error _ =>
        ⟨"Sorry, I encountered an error while processing your request.", last, 1, msgs⟩
    | .ok resp =>
      if resp.hasToolCalls then
        let tr := execToolCalls env.execTool resp.toolCalls last
        let out := toolLoopRun env fuel
          (msgs ++ ⟨"assistant", resp.content, resp.toolCalls, ""⟩ :: tr.1) tr.2
        { out with calls := out.calls + 1 }
      else ⟨resp.content, last, 1, msgs⟩

/-- The tool-calling loop of `AgentLoop.ProcessDirect`: same iteration
shape, but a provider error is returned to the caller, an empty final
content falls back to the last tool result (else the empty content), and
exhausting the iterations yields a fixed message.  Returns the reply and
the number of provider calls. -/
def directLoop (env : LoopEnv) : Nat → List PMessage → String → Except String String × Nat
  | 0, _, _ => (.ok "Max iterations reached without final response", 0)
  | fuel + 1, msgs, last =>
    match env.provider msgs with
    | .error e => (.error e, 1)
    | .ok resp =>
      if resp.hasToolCalls then
        let tr := execToolCalls env.execTool resp.toolCalls last
        let r := directLoop env fuel
          (msgs ++ ⟨"assistant", resp.content, resp.toolCalls, ""⟩ :: tr.1) tr.2
        (r.1, r.2 + 1)
      else if resp.content ≠ "" then (.ok resp.content, 1)
      else if last ≠ "" then (.ok last, 1)
      else (.ok resp.content, 1)

/-- `AgentLoop.ProcessDirect(content, timeout)`: build the turn with
`channel="cli"`, `chatID="direct"`, no session history and an empty memory
list, and run the direct tool-calling loop (the timeout is I/O and not
modelled). -/
def processDirect (env : LoopEnv) (content : String) : Except String String × Nat :=
  directLoop env env.maxIterations
    (env.buildMessages [] content "cli" "direct" env.memCtx []) ""

/-- `SessionManager.GetOrCreate`: look the key up, lazily creating an empty
session. -/
def getOrCreate (l : List Session) (key : String) : Session × List Session :=
  match l.find? (fun s => s.key = key) with
  | some s => (s, l)
  | none => (⟨key, []⟩, l ++ [⟨key, []⟩])

/-- Writing an updated session back into the (pointer-shared) session map:
every entry with the session's key becomes the updated session. -/
def setSession (l : List Session) (s : Session) : List Session :=
  l.map fun t => if t.key = s.key then s else t

/-- `Session.AddMessage`: append a message with the current timestamp. -/
def addMessage (s : Session) (role content now : String) : Session :=
  { s with history := s.history ++ [⟨role, content, now⟩] }

/-- The memory items offered to the context builder: the persistent-memory
query result re-tagged with `Kind = "Persistent"`, or nothing when the
query failed (the error is logged) or persistent memory is disabled. -/
def memoriesOf (mq : Option (Except String (List MemoryItem))) : List MemoryItem :=
  match mq with
  | none => []
  | some (.error _) => []
  | some (.ok memx) => memx.map fun m => { m with kind := "Persistent" }

/-- The empty-reply fallbacks of `Run` (step 6): an empty final content
falls back to the last tool result if non-empty, else to the canned
sentence. -/
def finalize (out : LoopOut) : String :=
  if out.final = "" ∧ out.last ≠ "" then out.last
  else if out.final = "" then "I've completed processing but have no response to give."
  else out.final

/-- The archival step of `Run` (step 8): when persistent memory is enabled,
each trimmed non-user message is stored under
`channel_id = msg.Channel + msg.ChatID`. -/
def storedOf (mq : Option (Except String (List MemoryItem))) (msg : Inbound)
    (trimmed : List Message) : List (String × Message) :=
  match mq with
  | none => []
  | some _ =>
    (trimmed.filter fun m => m.role != "user").map fun m =>
      (msg.channel ++ msg.chatID, m)

/-- The observable effects of processing one inbound message in
`AgentLoop.Run`: texts appended to today's note, outbound messages emitted,
provider calls made, the final reply, and the `(channel_id, message)` pairs
stored into persistent memory. -/
structure RunResult where
  notesAppended : List String
  outbound : List Outbound
  providerCalls : Nat
  finalContent : String
  stored : List (String × Message)
deriving Repr, DecidableEq

/-- The per-message body of `AgentLoop.Run` (loop.go lines 118–248): the
remember short-circuit, session resolution, persistent-memory query,
context building, the tool-calling loop, the empty-reply fallbacks, session
update, `TrimAll` with archival of trimmed non-user messages under
`msg.Channel + msg.ChatID`, `Save`, and the outbound reply. -/
def runInbound (env : LoopEnv) (st : List Session) (msg : Inbound) (now : String) :
    List Session × RunResult :=
  match rememberMatch msg.content with
  | some note =>
    let key := msg.channel ++ ":" ++ msg.chatID
    let gc := getOrCreate st key
    let s2 := (Session.Trim (addMessage (addMessage gc.1 "user" msg.content now)
      "assistant" "OK, I've remembered that." now)).2
    (setSession gc.2 s2,
     ⟨[note], [⟨msg.channel, msg.chatID, "OK, I've remembered that."⟩], 0,
      "OK, I've remembered that.", []⟩)
  | none =>
    let key := msg.channel ++ ":" ++ msg.chatID
    let gc := getOrCreate st key
    let messages := env.buildMessages gc.1.history msg.content msg.channel msg.chatID
      env.memCtx (memoriesOf env.memoryQuery)
    let out := toolLoopRun env env.maxIterations messages ""
    let finalContent := finalize out
    let s1 := addMessage (addMessage gc.1 "user" msg.content now) "assistant" finalContent now
    let ta := trimAllSessions (setSession gc.2 s1)
    let stored := storedOf env.memoryQuery msg ta.1
    let ss3 := ta.2.map fun t => if t.key = key then (t.Trim).2 else t
    (ss3, ⟨[], [⟨msg.channel, msg.chatID, finalContent⟩], out.calls, finalContent, stored⟩)

/-- The provider-silent environment: the provider answers with empty
content and no tool calls. -/
def envSilent : LoopEnv :=
  ⟨fun _ => .ok ⟨"", false, []⟩, fun _ _ => .ok "", fun _ _ _ _ _ _ => [], "", 3, none⟩

/-- An environment whose provider immediately answers "hi". -/
def envHi : LoopEnv :=
  ⟨fun _ => .ok ⟨"hi", false, []⟩, fun _ _ => .ok "", fun _ _ _ _ _ _ => [], "", 3, none⟩

/-- An environment with persistent memory enabled (an empty query result). -/
def envMemOn : LoopEnv :=
  ⟨fun _ => .ok ⟨"done", false, []⟩, fun _ _ => .ok "", fun _ _ _ _ _ _ => [], "", 3,
   some (.ok [])⟩

/-- A session for a different chat, holding 51 assistant messages (so one
message overflows and is trimmed). -/
def otherSession : Session :=
  ⟨"telegram:99", List.replicate 51 ⟨"assistant", "x", "t0"⟩⟩

/-! ## Theorems -/

theorem trim_concat (s : Session) : (s.Trim).1 ++ (s.Trim).2.history = s.history := by
  unfold Session.Trim
  split
  · exact List.take_append_drop _ _
  · rfl

theorem trim_length_le (s : Session) : (s.Trim).2.history.length ≤ MaxHistorySize := by
  unfold Session.Trim
  split
  · next h => simp [List.length_drop]; omega
  · next h => simpa using Nat.le_of_not_lt h

theorem decodeF32_zero : decodeF32 0 = 0 := by norm_num [decodeF32]

theorem bytesToFloats_replicate_zero (k : Nat) :
    bytesToFloats (List.replicate (4 * k) 0) = List.replicate k 0 := by
  induction k with
  | zero => rfl
  | succ n ih =>
      have h4 : 4 * (n + 1) = 4 + 4 * n := by ring
      rw [h4, List.replicate_add]
      show bytesToFloats (0 :: 0 :: 0 :: 0 :: List.replicate (4 * n) 0) = _
      rw [bytesToFloats]
      simp only [ih]
      norm_num [decodeF32_zero, List.replicate_succ]

theorem dot_replicate_zero_left (k : Nat) (v : List ℚ) :
    dot (List.replicate k 0) v = 0 := by
  induction k generalizing v with
  | zero => simp [dot]
  | succ n ih =>
      cases v with
      | nil => simp [dot]
      | cons x xs =>
          simp [dot, List.replicate_succ, List.zipWith] at *
          exact ih xs

theorem dot_replicate_zero_right (k : Nat) (v : List ℚ) :
    dot v (List.replicate k 0) = 0 := by
  induction k generalizing v with
  | zero => simp [dot]
  | succ n ih =>
      cases v with
      | nil => simp [dot]
      | cons x xs =>
          simp [dot, List.replicate_succ, List.zipWith] at *
          exact ih xs

theorem zeroPadTo_length {x : List Nat} {n : Nat} (h : x.length ≤ n) :
    (zeroPadTo x n).length = n := by
  simp [zeroPadTo]; omega

theorem zeroPadTo_self (x : List Nat) : zeroPadTo x x.length = x := by
  simp [zeroPadTo]

theorem zeroPadTo_nil (n : Nat) : zeroPadTo [] n = List.replicate n 0 := by
  simp [zeroPadTo]

theorem cosineSimilarity_left_empty {b : List Nat} (hb : b.length % 4 = 0) :
    cosineSimilarityScalar [] b = Except.ok 0 := by
  unfold cosineSimilarityScalar
  rw [if_neg (by simp [hb])]
  rcases eq_or_ne b [] with rfl | hne
  · simp [zeroPadTo]
  · have hlen : b.length ≠ 0 := by simpa using hne
    obtain ⟨k, hk⟩ : ∃ k, b.length = 4 * k := ⟨b.length / 4, by omega⟩
    rw [if_neg]
    · simp only [List.length_nil, Nat.zero_max, zeroPadTo_nil, zeroPadTo_self,
        hk, bytesToFloats_replicate_zero, dot_replicate_zero_left]
    · simp only [not_or, List.length_nil, Nat.zero_max, zeroPadTo_self]
      refine ⟨?_, hlen⟩
      rw [zeroPadTo_length (by simp)]
      exact hlen

theorem cosineSimilarity_right_empty {a : List Nat} (ha : a.length % 4 = 0) :
    cosineSimilarityScalar a [] = Except.ok 0 := by
  unfold cosineSimilarityScalar
  rw [if_neg (by simp [ha])]
  rcases eq_or_ne a [] with rfl | hne
  · simp [zeroPadTo]
  · have hlen : a.length ≠ 0 := by simpa using hne
    obtain ⟨k, hk⟩ : ∃ k, a.length = 4 * k := ⟨a.length / 4, by omega⟩
    rw [if_neg]
    · simp only [List.length_nil, Nat.max_zero, zeroPadTo_nil, zeroPadTo_self,
        hk, bytesToFloats_replicate_zero, dot_replicate_zero_right]
    · simp only [not_or, List.length_nil, Nat.max_zero, zeroPadTo_self]
      refine ⟨hlen, ?_⟩
      rw [zeroPadTo_length (by simp)]
      exact hlen

/-- **C1.** Every successful `QueryHistory(channel, queryText, topK)` returns
only items whose similarity is at least the configured threshold (0.87 when
the configured value is ≤ 0), sorted in non-increasing similarity order,
with at most `topK` items (`topK` defaulting to the configured value — 10
when the configured value is ≤ 0 — when the caller passes `topK ≤ 0`), and
the `channel_id` filter is applied exactly when `channel ≠ ""`: the query
over all rows equals the query over the channel-filtered rows with the
filter disabled. -/
theorem claim_queryHistory_contract (cfg : MemoryConfig)
    (embed : String → Except String (List Nat)) (rows : List MemRow)
    (ch q : String) (topk : Int) (res : List MemoryItem)
    (h : QueryHistory (NewPersistMemory cfg embed) rows ch q topk = .ok res) :
    (∀ it ∈ res, (if cfg.threshold ≤ 0 then 87 / 100 else cfg.threshold) ≤ it.similarity) ∧
    List.Sorted memGE res ∧
    res.length ≤ (if topk ≤ 0 then (if cfg.topK ≤ 0 then 10 else cfg.topK) else topk).toNat ∧
    QueryHistory (NewPersistMemory cfg embed) rows ch q topk =
      QueryHistory (NewPersistMemory cfg embed)
        (if ch = "" then rows else rows.filter (fun r => r.channel_id == ch))
        "" q topk := by
  unfold QueryHistory at h ⊢
  refine ?_
  cases hemb : embed q with
  | error e =>
      rw [NewPersistMemory] at h; simp only [hemb] at h
      exact Except.noConfusion h
  | ok emb =>
      rw [NewPersistMemory] at h
      simp only [hemb] at h ⊢
      cases hsims : computeSims (floatsToBytes emb)
          (if ch = "" then rows else rows.filter (fun r => r.channel_id == ch)) with
      | error e =>
          simp only [hsims] at h
          exact Except.noConfusion h
      | ok items =>
          simp only [hsims] at h ⊢
          have hres : res =
              (List.insertionSort memGE
                (items.filter (fun it =>
                  decide ((if cfg.threshold ≤ 0 then 87 / 100 else cfg.threshold) ≤
                    it.similarity)))).take
                (if topk ≤ 0 then (if cfg.topK ≤ 0 then 10 else cfg.topK) else topk).toNat := by
            exact ((Except.ok.injEq _ _).mp h).symm
          subst hres
          refine ⟨?_, ?_, ?_, ?_⟩
          · intro it hit
            have h1 : it ∈ List.insertionSort memGE
                (items.filter (fun it =>
                  decide ((if cfg.threshold ≤ 0 then 87 / 100 else cfg.threshold) ≤
                    it.similarity))) := List.take_sublist _ _ |>.mem hit
            have h2 := (List.perm_insertionSort memGE _).mem_iff.mp h1
            exact decide_eq_true_iff.mp (List.mem_filter.mp h2).2
          · exact List.Pairwise.sublist (List.take_sublist _ _)
              (List.sorted_insertionSort memGE _)
          · exact List.length_take_le _ _
          · simp

/-- Witness for C1 at a concrete (empty-table) query: the defaulted
configuration and an empty row set give an empty, trivially conforming
result. -/
theorem claim_queryHistory_contract_witness :
    (∀ it ∈ ([] : List MemoryItem),
      (if (0 : ℚ) ≤ 0 then 87 / 100 else (0 : ℚ)) ≤ it.similarity) ∧
    List.Sorted memGE ([] : List MemoryItem) ∧
    ([] : List MemoryItem).length ≤
      (if (0 : Int) ≤ 0 then (if (0 : Int) ≤ 0 then 10 else (0 : Int)) else (0 : Int)).toNat ∧
    QueryHistory (NewPersistMemory ⟨0, 0⟩ fun _ => .ok []) [] "c1" "query" 0 =
      QueryHistory (NewPersistMemory ⟨0, 0⟩ fun _ => .ok [])
        (if "c1" = "" then [] else List.filter (fun r => r.channel_id == "c1") [])
        "" "query" 0 :=
  claim_queryHistory_contract ⟨0, 0⟩ (fun _ => .ok []) [] "c1" "query" 0 [] rfl

/-- **C2.** `Trim` returns the discarded prefix, with the prefix followed by
the remaining history equal to the pre-trim history; the prefix is empty when
the history had at most 50 messages; and since `Save` trims before writing,
the session recorded by `Save` has at most 50 messages of history. -/
theorem claim_trim_save (s : Session) :
    (s.Trim).1 ++ (s.Trim).2.history = s.history ∧
    (s.history.length ≤ 50 → (s.Trim).1 = []) ∧
    (saveSession s).history.length ≤ 50 := by
  refine ⟨trim_concat s, fun h => ?_, trim_length_le s⟩
  unfold Session.Trim
  rw [if_neg (by simp [MaxHistorySize]; omega)]

/-- Witness for C2 at a concrete session of 51 messages: the trimmed prefix
is the oldest message, and concatenation restores the original history. -/
theorem claim_trim_save_witness :
    letI s : Session := ⟨"telegram:42", List.replicate 51 ⟨"user", "hi", "t"⟩⟩
    (s.Trim).1 ++ (s.Trim).2.history = s.history ∧
    (saveSession s).history.length ≤ 50 := by
  refine ⟨(claim_trim_save _).1, (claim_trim_save _).2.2⟩

/-- **C5.** For blobs whose byte lengths are multiples of 4,
`cosine_similarity` does not fail: it zero-pads the shorter argument to the
longer length and returns the dot product of the two little-endian float32
arrays; in particular for equal-length blobs it returns the dot product of
the two decoded vectors with no padding. -/
theorem claim_cosineSimilarity_tolerant (a b : List Nat)
    (ha : a.length % 4 = 0) (hb : b.length % 4 = 0) :
    cosineSimilarityScalar a b =
      Except.ok (dot (bytesToFloats (zeroPadTo a (max a.length b.length)))
                     (bytesToFloats (zeroPadTo b (max a.length b.length)))) ∧
    (a.length = b.length →
      cosineSimilarityScalar a b = Except.ok (dot (bytesToFloats a) (bytesToFloats b))) := by
  have main : cosineSimilarityScalar a b =
      Except.ok (dot (bytesToFloats (zeroPadTo a (max a.length b.length)))
                     (bytesToFloats (zeroPadTo b (max a.length b.length)))) := by
    unfold cosineSimilarityScalar
    rw [if_neg (by simp [ha, hb])]
    rcases Nat.eq_zero_or_pos (max a.length b.length) with hmax | hmax
    · have h1 : a.length ≤ max a.length b.length := le_max_left _ _
      have h2 : b.length ≤ max a.length b.length := le_max_right _ _
      have ha0 : a = [] := List.length_eq_zero.mp (by omega)
      have hb0 : b = [] := List.length_eq_zero.mp (by omega)
      subst ha0 hb0
      simp [zeroPadTo, dot, bytesToFloats]
    · rw [if_neg]
      simp only [not_or]
      constructor
      · rw [zeroPadTo_length (le_max_left _ _)]; omega
      · rw [zeroPadTo_length (le_max_right _ _)]; omega
  refine ⟨main, fun hlen => ?_⟩
  have hmax : max a.length b.length = a.length := by rw [hlen, Nat.max_self]
  have e1 : zeroPadTo a (max a.length b.length) = a := by
    rw [hmax]; exact zeroPadTo_self a
  have e2 : zeroPadTo b (max a.length b.length) = b := by
    rw [hmax, hlen]; exact zeroPadTo_self b
  rw [main, e1, e2]

/-- Witness for C5: a one-float blob against an empty blob succeeds, the
empty side being zero-padded, so the similarity is 0. -/
theorem claim_cosineSimilarity_tolerant_witness :
    cosineSimilarityScalar [0, 0, 128, 63] [] = Except.ok 0 := by
  have h := claim_cosineSimilarity_tolerant [0, 0, 128, 63] [] (by norm_num) (by norm_num)
  rw [h.1]
  norm_num [zeroPadTo, bytesToFloats, dot, decodeF32]

/-- **C6 counterexample.** The two scalar functions do not fail on the same
inputs: with an empty first blob and a 3-byte second blob,
`cosine_distance` succeeds (returning 1) while `cosine_similarity` fails,
because `cosine_distance` checks for empty blobs before validating that
lengths are multiples of 4, and `cosine_similarity` validates first. -/
theorem claim_cosine_fail_sets_differ :
    cosineDistanceScalar [] [0, 0, 0] = Except.ok 1 ∧
    cosineSimilarityScalar [] [0, 0, 0] =
      Except.error "blobs must contain whole float32 values" := by
  constructor
  · rfl
  · rfl

/-- **C6 amended.** Whenever `cosine_similarity(a, b)` succeeds with value
`s`, `cosine_distance(a, b)` succeeds with exactly `1 - s` (so the equality
of the claim holds on every input where both are defined); the failure sets
however differ, as shown by the counterexample. -/
theorem claim_cosineDistance_eq_one_sub (a b : List Nat) (s : ℚ)
    (h : cosineSimilarityScalar a b = Except.ok s) :
    cosineDistanceScalar a b = Except.ok (1 - s) := by
  have hmod : a.length % 4 = 0 ∧ b.length % 4 = 0 := by
    by_contra hc
    rw [cosineSimilarityScalar, if_pos (by tauto)] at h
    exact Except.noConfusion h
  obtain ⟨ha, hb⟩ := hmod
  rcases eq_or_ne a [] with rfl | ha0
  · have h0 : s = 0 := by
      have := cosineSimilarity_left_empty hb
      rw [this] at h
      exact (Except.ok.injEq _ _).mp h.symm
    subst h0
    rw [cosineDistanceScalar, if_pos (by simp)]
    norm_num
  · rcases eq_or_ne b [] with rfl | hb0
    · have h0 : s = 0 := by
        have := cosineSimilarity_right_empty ha
        rw [this] at h
        exact (Except.ok.injEq _ _).mp h.symm
      subst h0
      rw [cosineDistanceScalar, if_pos (by simp)]
      norm_num
    · have hal : a.length ≠ 0 := by simpa using ha0
      have hbl : b.length ≠ 0 := by simpa using hb0
      have hq : (zeroPadTo a (max a.length b.length)).length ≠ 0 := by
        rw [zeroPadTo_length (le_max_left _ _)]; omega
      have hr : (zeroPadTo b (max a.length b.length)).length ≠ 0 := by
        rw [zeroPadTo_length (le_max_right _ _)]; omega
      rw [cosineSimilarityScalar, if_neg (by simp [ha, hb]), if_neg (by tauto)] at h
      rw [cosineDistanceScalar, if_neg (by tauto), if_neg (by simp [ha, hb]),
        if_neg (by tauto)]
      rw [← (Except.ok.injEq _ _).mp h]

/-- Witness for C6 amended: for a one-float blob equal on both sides the
similarity is 1 and the distance is exactly 0 = 1 − 1. -/
theorem claim_cosineDistance_eq_one_sub_witness :
    cosineDistanceScalar [0, 0, 128, 63] [0, 0, 128, 63] = Except.ok (1 - 1) := by
  refine claim_cosineDistance_eq_one_sub _ _ 1 ?_
  norm_num [cosineSimilarityScalar, zeroPadTo, bytesToFloats, dot, decodeF32]

/-- **C9.** The proxy never forwards a dequeued message to a per-transport
queue other than the one named by its channel field, and messages whose
channel is neither "telegram" nor "ntfy" are dropped without being
forwarded anywhere (the state is unchanged). -/
theorem claim_proxy_routing (cap : Nat) (st : ProxyState) (m : Outbound) :
    (m.channel ≠ "telegram" → (proxyStep cap st m).telegramOut = st.telegramOut) ∧
    (m.channel ≠ "ntfy" → (proxyStep cap st m).ntfyOut = st.ntfyOut) ∧
    (m.channel ≠ "telegram" ∧ m.channel ≠ "ntfy" → proxyStep cap st m = st) := by
  unfold proxyStep
  by_cases h1 : m.channel = "telegram"
  · simp [h1]
  · by_cases h2 : m.channel = "ntfy" <;> simp [h1, h2]

/-- Witness for C9: a message with unknown channel "cli" leaves both
per-transport queues untouched. -/
theorem claim_proxy_routing_witness :
    proxyStep 8 ⟨[], []⟩ ⟨"cli", "42", "hi"⟩ = ⟨[], []⟩ :=
  (claim_proxy_routing 8 ⟨[], []⟩ ⟨"cli", "42", "hi"⟩).2.2 ⟨by decide, by decide⟩

theorem chunkWords_bounded (maxW : Nat) (hW : 1 ≤ maxW) :
    ∀ (n : Nat) (ws : List String), ws.length ≤ n →
      ∀ g ∈ chunkWords maxW ws, g.length ≤ maxW := by
  intro n
  induction n with
  | zero =>
      intro ws h g hg
      have hnil : ws = [] := List.length_eq_zero.mp (by omega)
      subst hnil
      simp [chunkWords] at hg
  | succ n ih =>
      intro ws h g hg
      cases ws with
      | nil => simp [chunkWords] at hg
      | cons w rest =>
          rw [chunkWords] at hg
          rcases List.mem_cons.mp hg with rfl | hg2
          · simp only [List.length_cons, List.length_take]
            omega
          · exact ih (rest.drop (maxW - 1))
              (by simp only [List.length_drop]; simp at h; omega) g hg2

theorem zipAdd_replicate_zero_left (v : List ℚ) :
    zipAdd (List.replicate v.length 0) v = v := by
  induction v with
  | nil => rfl
  | cons x xs ih =>
      simp only [List.length_cons, List.replicate_succ, zipAdd, List.zipWith_cons_cons,
        zero_add]
      exact congrArg (x :: ·) ih

theorem foldl_dim_filter_eq (dim : Nat) (es : List (List ℚ))
    (h : ∀ e ∈ es, e.length = dim) (acc : List ℚ) :
    es.foldl (fun acc emb => if emb.length = dim then zipAdd acc emb else acc) acc =
      es.foldl zipAdd acc := by
  induction es generalizing acc with
  | nil => rfl
  | cons e rest ih =>
      simp only [List.foldl_cons, if_pos (h e (List.mem_cons_self e rest))]
      exact ih (fun x hx => h x (List.mem_cons_of_mem e hx)) _

/-- **C7 counterexample.** With an engine producing one matching and one
mismatched chunk vector, `Embed` returns `[1/2]`: the mismatched vector is
skipped in the sum, but the divisor is still the TOTAL number of chunks
(2), so the result differs from the arithmetic mean `[1]` of the
non-skipped vectors — the skipped chunk does contribute to the mean through
the divisor. -/
theorem claim_embed_mean_counterexample :
    (NewONNXEmbedder fun _ => .ok [[1], [1, 2]]).Embed "hello" = .ok [1 / 2] ∧
    specMeanNonSkipped [[1], [1, 2]] = [1] ∧
    ((1 : ℚ) / 2) ≠ 1 := by
  refine ⟨?_, ?_, by norm_num⟩
  · show (match (Except.ok [[1], [1, 2]] : Except String (List (List ℚ))) with
      | Except.error err =>
          (Except.error ("failed to generate embedding for text: " ++ err) :
            Except String (List ℚ))
      | Except.ok vec =>
        match vec with
        | [] => Except.error "no embeddings found in the response"
        | v0 :: _ =>
            if v0.length = 0 then Except.error "no embeddings found in the response"
            else Except.ok (averageEmbeddings vec)) = Except.ok [1 / 2]
    norm_num [averageEmbeddings, zipAdd]
  · simp [specMeanNonSkipped, zipAdd, List.filter]

/-- **C7 amended.** `Embed` splits the text into word chunks of at most 200
words each, embeds the batch of chunks, and returns the element-wise sum of
those chunk vectors whose dimension matches the first vector's (mismatched
vectors are skipped), divided by the total number of chunk vectors; when
every chunk vector has the matching dimension this is exactly the
arithmetic mean of the chunk vectors. -/
theorem claim_embed_chunked_mean (eng : List String → Except String (List (List ℚ)))
    (text : String) (v0 : List ℚ) (vs : List (List ℚ))
    (h : eng (splitIntoChunks text 200) = .ok (v0 :: vs)) (h0 : v0 ≠ []) :
    (∀ g ∈ chunkWords 200 (fields text), g.length ≤ 200) ∧
    (NewONNXEmbedder eng).Embed text = .ok (averageEmbeddings (v0 :: vs)) ∧
    averageEmbeddings (v0 :: vs) =
      ((v0 :: vs).foldl
          (fun acc emb => if emb.length = v0.length then zipAdd acc emb else acc)
          (List.replicate v0.length 0)).map
        (· / (((v0 :: vs).length : Nat) : ℚ)) ∧
    ((∀ e ∈ v0 :: vs, e.length = v0.length) →
      averageEmbeddings (v0 :: vs) =
        ((v0 :: vs).foldl zipAdd (List.replicate v0.length 0)).map
          (· / (((v0 :: vs).length : Nat) : ℚ))) := by
  have hformula : averageEmbeddings (v0 :: vs) =
      ((v0 :: vs).foldl
          (fun acc emb => if emb.length = v0.length then zipAdd acc emb else acc)
          (List.replicate v0.length 0)).map
        (· / (((v0 :: vs).length : Nat) : ℚ)) := by
    cases vs with
    | nil =>
        simp only [averageEmbeddings, List.foldl_cons, List.foldl_nil, if_pos rfl,
          zipAdd_replicate_zero_left, List.length_cons, List.length_nil]
        norm_num
    | cons v1 rest => rfl
  refine ⟨?_, ?_, hformula, fun hall => ?_⟩
  · exact chunkWords_bounded 200 (by norm_num) (fields text).length _ le_rfl
  · unfold ONNXEmbedder.Embed NewONNXEmbedder
    simp only [h]
    rw [if_neg (by simpa using h0)]
  · rw [hformula, foldl_dim_filter_eq v0.length _ hall]

/-- Witness for C7 amended, at a single one-word chunk embedded to `[1]`:
the embedding is the (trivial) mean of the single chunk vector. -/
theorem claim_embed_chunked_mean_witness :
    (NewONNXEmbedder fun _ => .ok [[1]]).Embed "hi" = .ok (averageEmbeddings [[1]]) :=
  (claim_embed_chunked_mean (fun _ => .ok [[1]]) "hi" [1] [] rfl (by simp)).2.1

theorem getOrCreate_key (l : List Session) (key : String) :
    (getOrCreate l key).1.key = key := by
  unfold getOrCreate
  cases h : l.find? (fun s => s.key = key) with
  | none => rfl
  | some s =>
      show s.key = key
      simpa using List.find?_some h

theorem getOrCreate_mem (l : List Session) (key : String) :
    ∃ t ∈ (getOrCreate l key).2, t.key = key := by
  unfold getOrCreate
  cases h : l.find? (fun s => s.key = key) with
  | none =>
      show ∃ t ∈ l ++ [⟨key, []⟩], t.key = key
      exact ⟨⟨key, []⟩, by simp, rfl⟩
  | some s =>
      show ∃ t ∈ l, t.key = key
      exact ⟨s, List.mem_of_find?_eq_some h, by simpa using List.find?_some h⟩

theorem setSession_mem {l : List Session} {s : Session}
    (h : ∃ t ∈ l, t.key = s.key) : s ∈ setSession l s := by
  obtain ⟨t, ht, hk⟩ := h
  unfold setSession
  refine List.mem_map.mpr ⟨t, ht, ?_⟩
  rw [if_pos hk]

theorem addMessage_key (s : Session) (role content now : String) :
    (addMessage s role content now).key = s.key := rfl

theorem trim_key (s : Session) : (s.Trim).2.key = s.key := by
  unfold Session.Trim
  split <;> rfl

theorem trim_endsWith (k : String) (l : List Message) (u a : Message) :
    ∃ pre, ((⟨k, l ++ [u, a]⟩ : Session).Trim).2.history = pre ++ [u, a] := by
  unfold Session.Trim
  split
  · next h =>
      refine ⟨l.drop ((l ++ [u, a]).length - MaxHistorySize), ?_⟩
      show (l ++ [u, a]).drop ((l ++ [u, a]).length - MaxHistorySize) = _
      rw [List.drop_append_of_le_length]
      simp only [List.length_append, List.length_cons, List.length_nil, MaxHistorySize] at h ⊢
      omega
  · exact ⟨l, rfl⟩

theorem toolLoopRun_succ_err (env : LoopEnv) {msgs : List PMessage} {e : String}
    (h : env.provider msgs = .error e) (n : Nat) (last : String) :
    toolLoopRun env (n + 1) msgs last =
      ⟨"Sorry, I encountered an error while processing your request.", last, 1, msgs⟩ := by
  rw [toolLoopRun, h]

theorem toolLoopRun_succ_tc (env : LoopEnv) {msgs : List PMessage}
    {resp : ProviderResponse} (h : env.provider msgs = .ok resp)
    (htc : resp.hasToolCalls = true) (n : Nat) (last : String) :
    toolLoopRun env (n + 1) msgs last =
      ⟨(toolLoopRun env n
          (msgs ++ ⟨"assistant", resp.content, resp.toolCalls, ""⟩ ::
            (execToolCalls env.execTool resp.toolCalls last).1)
          (execToolCalls env.execTool resp.toolCalls last).2).final,
       (toolLoopRun env n
          (msgs ++ ⟨"assistant", resp.content, resp.toolCalls, ""⟩ ::
            (execToolCalls env.execTool resp.toolCalls last).1)
          (execToolCalls env.execTool resp.toolCalls last).2).last,
       (toolLoopRun env n
          (msgs ++ ⟨"assistant", resp.content, resp.toolCalls, ""⟩ ::
            (execToolCalls env.execTool resp.toolCalls last).1)
          (execToolCalls env.execTool resp.toolCalls last).2).calls + 1,
       (toolLoopRun env n
          (msgs ++ ⟨"assistant", resp.content, resp.toolCalls, ""⟩ ::
            (execToolCalls env.execTool resp.toolCalls last).1)
          (execToolCalls env.execTool resp.toolCalls last).2).msgs⟩ := by
  rw [toolLoopRun, h]
  simp [htc]

theorem toolLoopRun_succ_final (env : LoopEnv) {msgs : List PMessage}
    {resp : ProviderResponse} (h : env.provider msgs = .ok resp)
    (htc : resp.hasToolCalls = false) (n : Nat) (last : String) :
    toolLoopRun env (n + 1) msgs last = ⟨resp.content, last, 1, msgs⟩ := by
  rw [toolLoopRun, h]
  simp [htc]

theorem directLoop_succ_err (env : LoopEnv) {msgs : List PMessage} {e : String}
    (h : env.provider msgs = .error e) (n : Nat) (last : String) :
    directLoop env (n + 1) msgs last = (.error e, 1) := by
  rw [directLoop, h]

theorem directLoop_succ_tc (env : LoopEnv) {msgs : List PMessage}
    {resp : ProviderResponse} (h : env.provider msgs = .ok resp)
    (htc : resp.hasToolCalls = true) (n : Nat) (last : String) :
    directLoop env (n + 1) msgs last =
      ((directLoop env n
          (msgs ++ ⟨"assistant", resp.content, resp.toolCalls, ""⟩ ::
            (execToolCalls env.execTool resp.toolCalls last).1)
          (execToolCalls env.execTool resp.toolCalls last).2).1,
       (directLoop env n
          (msgs ++ ⟨"assistant", resp.content, resp.toolCalls, ""⟩ ::
            (execToolCalls env.execTool resp.toolCalls last).1)
          (execToolCalls env.execTool resp.toolCalls last).2).2 + 1) := by
  rw [directLoop, h]
  simp [htc]

theorem directLoop_succ_fin (env : LoopEnv) {msgs : List PMessage}
    {resp : ProviderResponse} (h : env.provider msgs = .ok resp)
    (htc : resp.hasToolCalls = false) (n : Nat) (last : String) :
    directLoop env (n + 1) msgs last =
      (if resp.content ≠ "" then (.ok resp.content, 1)
       else if last ≠ "" then (.ok last, 1)
       else (.ok resp.content, 1)) := by
  rw [directLoop, h]
  simp only [htc, Bool.false_eq_true, if_false]

theorem toolLoopRun_calls_le (env : LoopEnv) :
    ∀ (fuel : Nat) (msgs : List PMessage) (last : String),
      (toolLoopRun env fuel msgs last).calls ≤ fuel := by
  intro fuel
  induction fuel with
  | zero => intro msgs last; exact Nat.le_refl 0
  | succ n ih =>
      intro msgs last
      cases hp : env.provider msgs with
      | error e =>
          rw [toolLoopRun_succ_err env hp]
          exact Nat.le_add_left 1 n
      | ok resp =>
          cases htc : resp.hasToolCalls with
          | true =>
              rw [toolLoopRun_succ_tc env hp htc]
              exact Nat.succ_le_succ (ih _ _)
          | false =>
              rw [toolLoopRun_succ_final env hp htc]
              exact Nat.le_add_left 1 n

theorem directLoop_calls_le (env : LoopEnv) :
    ∀ (fuel : Nat) (msgs : List PMessage) (last : String),
      (directLoop env fuel msgs last).2 ≤ fuel := by
  intro fuel
  induction fuel with
  | zero => intro msgs last; exact Nat.le_refl 0
  | succ n ih =>
      intro msgs last
      cases hp : env.provider msgs with
      | error e =>
          rw [directLoop_succ_err env hp]
          exact Nat.le_add_left 1 n
      | ok resp =>
          cases htc : resp.hasToolCalls with
          | true =>
              rw [directLoop_succ_tc env hp htc]
              exact Nat.succ_le_succ (ih _ _)
          | false =>
              rw [directLoop_succ_fin env hp htc]
              split_ifs <;> exact Nat.le_add_left 1 n

theorem setSession_mem_other {l : List Session} {s s' : Session}
    (hs : s ∈ l) (hne : s.key ≠ s'.key) : s ∈ setSession l s' := by
  unfold setSession
  have : (fun t : Session => if t.key = s'.key then s' else t) s = s := if_neg hne
  exact this ▸ List.mem_map_of_mem _ hs

theorem getOrCreate_mem_of_mem {l : List Session} {s : Session} (key : String)
    (hs : s ∈ l) : s ∈ (getOrCreate l key).2 := by
  unfold getOrCreate
  cases l.find? (fun t => t.key = key) with
  | some t => exact hs
  | none => exact List.mem_append_left _ hs

/-- The remember branch of `runInbound`, as an unfolding equation. -/
theorem runInbound_remember (env : LoopEnv) (st : List Session) (msg : Inbound)
    (now note : String) (h : rememberMatch msg.content = some note) :
    runInbound env st msg now =
      (setSession (getOrCreate st (msg.channel ++ ":" ++ msg.chatID)).2
        ((Session.Trim (addMessage
          (addMessage (getOrCreate st (msg.channel ++ ":" ++ msg.chatID)).1
            "user" msg.content now)
          "assistant" "OK, I've remembered that." now)).2),
       ⟨[note], [⟨msg.channel, msg.chatID, "OK, I've remembered that."⟩], 0,
        "OK, I've remembered that.", []⟩) := by
  unfold runInbound
  rw [h]

/-- The normal (non-remember) branch of `runInbound`, as an unfolding
equation. -/
theorem runInbound_normal (env : LoopEnv) (st : List Session) (msg : Inbound)
    (now : String) (h : rememberMatch msg.content = none) :
    runInbound env st msg now =
      ((trimAllSessions (setSession (getOrCreate st (msg.channel ++ ":" ++ msg.chatID)).2
          (addMessage (addMessage (getOrCreate st (msg.channel ++ ":" ++ msg.chatID)).1
              "user" msg.content now)
            "assistant"
            (finalize (toolLoopRun env env.maxIterations
              (env.buildMessages (getOrCreate st (msg.channel ++ ":" ++ msg.chatID)).1.history
                msg.content msg.channel msg.chatID env.memCtx (memoriesOf env.memoryQuery))
              ""))
            now))).2.map
        (fun t => if t.key = msg.channel ++ ":" ++ msg.chatID then (t.Trim).2 else t),
       ⟨[],
        [⟨msg.channel, msg.chatID,
          finalize (toolLoopRun env env.maxIterations
            (env.buildMessages (getOrCreate st (msg.channel ++ ":" ++ msg.chatID)).1.history
              msg.content msg.channel msg.chatID env.memCtx (memoriesOf env.memoryQuery))
            "")⟩],
        (toolLoopRun env env.maxIterations
          (env.buildMessages (getOrCreate st (msg.channel ++ ":" ++ msg.chatID)).1.history
            msg.content msg.channel msg.chatID env.memCtx (memoriesOf env.memoryQuery))
          "").calls,
        finalize (toolLoopRun env env.maxIterations
          (env.buildMessages (getOrCreate st (msg.channel ++ ":" ++ msg.chatID)).1.history
            msg.content msg.channel msg.chatID env.memCtx (memoriesOf env.memoryQuery))
          ""),
        storedOf env.memoryQuery msg
          (trimAllSessions (setSession (getOrCreate st (msg.channel ++ ":" ++ msg.chatID)).2
            (addMessage (addMessage (getOrCreate st (msg.channel ++ ":" ++ msg.chatID)).1
                "user" msg.content now)
              "assistant"
              (finalize (toolLoopRun env env.maxIterations
                (env.buildMessages
                  (getOrCreate st (msg.channel ++ ":" ++ msg.chatID)).1.history
                  msg.content msg.channel msg.chatID env.memCtx
                  (memoriesOf env.memoryQuery))
                ""))
              now))).1⟩) := by
  unfold runInbound
  rw [h]

theorem trimAll_mem {l : List Session} {s : Session} (hs : s ∈ l) :
    ∀ {x : Message}, x ∈ (s.Trim).1 → x ∈ (trimAllSessions l).1 := by
  intro x hx
  induction l with
  | nil => cases hs
  | cons t rest ih =>
      have hcons : (trimAllSessions (t :: rest)).1 =
          (t.Trim).1 ++ (trimAllSessions rest).1 := by
        simp [trimAllSessions]
      rw [hcons]
      rcases List.mem_cons.mp hs with rfl | hmem
      · exact List.mem_append_left _ hx
      · exact List.mem_append_right _ (ih hmem)

theorem loopAgree (env : LoopEnv) :
    ∀ (fuel : Nat) (msgs : List PMessage) (last : String) (r : String),
      (toolLoopRun env fuel msgs last).final ≠ "" →
      (directLoop env fuel msgs last).1 = .ok r →
      r = (toolLoopRun env fuel msgs last).final ∧
        (directLoop env fuel msgs last).2 = (toolLoopRun env fuel msgs last).calls := by
  intro fuel
  induction fuel with
  | zero =>
      intro msgs last r hfin _
      exact absurd rfl hfin
  | succ n ih =>
      intro msgs last r hfin hok
      cases hp : env.provider msgs with
      | error e =>
          rw [directLoop_succ_err env hp] at hok
          exact Except.noConfusion hok
      | ok resp =>
          cases htc : resp.hasToolCalls with
          | true =>
              rw [toolLoopRun_succ_tc env hp htc] at hfin ⊢
              rw [directLoop_succ_tc env hp htc] at hok ⊢
              have hrec := ih _ _ r hfin hok
              refine ⟨hrec.1, ?_⟩
              show (directLoop env n _ _).2 + 1 = (toolLoopRun env n _ _).calls + 1
              rw [hrec.2]
          | false =>
              rw [toolLoopRun_succ_final env hp htc] at hfin ⊢
              rw [directLoop_succ_fin env hp htc] at hok ⊢
              have hfin2 : resp.content ≠ "" := hfin
              rw [if_pos hfin2] at hok ⊢
              exact ⟨((Except.ok.injEq _ _).mp hok).symm, rfl⟩

/-- **C3.** If the trimmed inbound content matches the case-insensitive
pattern `^remember(?:\s+to)?\s+(.+)$` with capture `note`, the loop appends
`note` to today's note, emits the reply "OK, I've remembered that." on the
originating channel, makes no provider call, and the session at the key
`channel:chatID` still records the user turn and the assistant turn at the
end of its history. -/
theorem claim_remember_shortcut (env : LoopEnv) (st : List Session) (msg : Inbound)
    (now note : String) (h : rememberMatch msg.content = some note) :
    (runInbound env st msg now).2.notesAppended = [note] ∧
    (runInbound env st msg now).2.outbound =
      [⟨msg.channel, msg.chatID, "OK, I've remembered that."⟩] ∧
    (runInbound env st msg now).2.providerCalls = 0 ∧
    ∃ s ∈ (runInbound env st msg now).1,
      s.key = msg.channel ++ ":" ++ msg.chatID ∧
      ∃ pre, s.history = pre ++
        [⟨"user", msg.content, now⟩, ⟨"assistant", "OK, I've remembered that.", now⟩] := by
  rw [runInbound_remember env st msg now note h]
  refine ⟨rfl, rfl, rfl, ?_⟩
  set key := msg.channel ++ ":" ++ msg.chatID with hkey
  set gc := getOrCreate st key with hgc
  set s2 := (Session.Trim (addMessage (addMessage gc.1 "user" msg.content now)
    "assistant" "OK, I've remembered that." now)).2 with hs2
  have hs2key : s2.key = key := by
    rw [hs2, trim_key, addMessage_key, addMessage_key, hgc, getOrCreate_key]
  refine ⟨s2, ?_, hs2key, ?_⟩
  · refine setSession_mem ?_
    obtain ⟨t, ht, hk⟩ := getOrCreate_mem st key
    exact ⟨t, ht, by rw [hk, hs2key]⟩
  · have hist : (addMessage (addMessage gc.1 "user" msg.content now)
        "assistant" "OK, I've remembered that." now) =
        ⟨gc.1.key, gc.1.history ++
          [⟨"user", msg.content, now⟩, ⟨"assistant", "OK, I've remembered that.", now⟩]⟩ := by
      simp [addMessage]
    rw [hs2, hist]
    exact trim_endsWith _ _ _ _

/-- Witness for C3: the inbound "remember to buy milk" stores "buy milk",
answers with the canned reply without a provider call, and records both
turns. -/
theorem claim_remember_shortcut_witness :
    (runInbound envSilent [] ⟨"telegram", "u", "42", "remember to buy milk"⟩ "t").2.notesAppended
        = ["buy milk"] ∧
    (runInbound envSilent [] ⟨"telegram", "u", "42", "remember to buy milk"⟩ "t").2.providerCalls
        = 0 :=
  letI h := claim_remember_shortcut envSilent [] ⟨"telegram", "u", "42", "remember to buy milk"⟩
    "t" "buy milk" (by decide)
  ⟨h.1, h.2.2.1⟩

/-- **C4.** Processing one inbound message makes at most `maxIterations`
provider calls, and `ProcessDirect` likewise makes at most `maxIterations`
provider calls. -/
theorem claim_provider_call_bound (env : LoopEnv) (st : List Session) (msg : Inbound)
    (now content : String) :
    (runInbound env st msg now).2.providerCalls ≤ env.maxIterations ∧
    (processDirect env content).2 ≤ env.maxIterations := by
  constructor
  · cases h : rememberMatch msg.content with
    | some note =>
        rw [runInbound_remember env st msg now note h]
        exact Nat.zero_le _
    | none =>
        rw [runInbound_normal env st msg now h]
        exact toolLoopRun_calls_le env _ _ _
  · exact directLoop_calls_le env _ _ _

/-- **C8 counterexample.** `ProcessDirect` does not apply the same
empty-reply fallbacks as steps 5–6 of the main loop: with a provider that
returns empty content and no tool calls, the main loop replies with the
fallback sentence while `ProcessDirect` returns the empty string. -/
theorem claim_processDirect_counterexample :
    (runInbound envSilent [] ⟨"cli", "u", "direct", "hello"⟩ "t").2.finalContent =
      "I've completed processing but have no response to give." ∧
    (processDirect envSilent "hello").1 = .ok "" ∧
    "I've completed processing but have no response to give." ≠ "" := by
  refine ⟨by decide, rfl, by decide⟩

/-- **C8 amended.** `ProcessDirect(content)` builds the turn exactly as the
main loop's steps 3–5 do for `channel="cli"`, `chatID="direct"` when the
session is empty and persistent memory is disabled (it fetches file-memory
context but, unlike the main loop, always passes an empty memory list), and
its reply and provider-call count agree with the main loop whenever the
tool-calling loop ends on a provider response with non-empty content; the
provider-error, empty-reply and iteration-exhaustion fallbacks differ, and
`ProcessDirect` performs no session persistence. -/
theorem claim_processDirect_refinement (env : LoopEnv) (st : List Session)
    (sender content now r : String)
    (hmem : env.memoryQuery = none)
    (hrem : rememberMatch content = none)
    (hsess : (getOrCreate st ("cli" ++ ":" ++ "direct")).1.history = [])
    (hfin : (toolLoopRun env env.maxIterations
      (env.buildMessages [] content "cli" "direct" env.memCtx []) "").final ≠ "")
    (hok : (processDirect env content).1 = .ok r) :
    (runInbound env st ⟨"cli", sender, "direct", content⟩ now).2.finalContent = r ∧
    (runInbound env st ⟨"cli", sender, "direct", content⟩ now).2.providerCalls =
      (processDirect env content).2 := by
  have hagree := loopAgree env env.maxIterations
    (env.buildMessages [] content "cli" "direct" env.memCtx []) "" r hfin hok
  have hmq : memoriesOf env.memoryQuery = [] := by rw [hmem]; rfl
  rw [runInbound_normal env st ⟨"cli", sender, "direct", content⟩ now hrem]
  dsimp only
  rw [hmq, hsess]
  constructor
  · rw [finalize, if_neg (fun hc => hfin hc.1), if_neg hfin]
    exact hagree.1.symm
  · exact hagree.2.symm

/-- Witness for C8 amended: a provider that immediately answers "hi" gives
the same reply "hi" and the same single provider call through both
entry points. -/
theorem claim_processDirect_refinement_witness :
    (runInbound envHi [] ⟨"cli", "u", "direct", "hello"⟩ "t").2.finalContent = "hi" ∧
    (runInbound envHi [] ⟨"cli", "u", "direct", "hello"⟩ "t").2.providerCalls =
      (processDirect envHi "hello").2 :=
  claim_processDirect_refinement envHi [] "u" "hello" "t" "hi" rfl (by decide) rfl
    (by decide) rfl

/-- **C10.** When persistent memory is enabled and the inbound message is
not a remember short-circuit, every message archived by the post-turn
`TrimAll` sweep is stored with `channel_id` equal to the inbound message's
channel immediately concatenated with its chatID (no separator) — and every
non-user message trimmed from ANY other session is archived under that same
`channel_id`, not under the key of the session it came from. -/
theorem claim_trimmed_archival (env : LoopEnv) (st : List Session) (msg : Inbound)
    (now : String) (q : Except String (List MemoryItem))
    (hmem : env.memoryQuery = some q)
    (hrem : rememberMatch msg.content = none) :
    (∀ e ∈ (runInbound env st msg now).2.stored, e.1 = msg.channel ++ msg.chatID) ∧
    (∀ s ∈ st, s.key ≠ msg.channel ++ ":" ++ msg.chatID →
      ∀ m ∈ (s.Trim).1, m.role ≠ "user" →
        (msg.channel ++ msg.chatID, m) ∈ (runInbound env st msg now).2.stored) := by
  constructor
  · intro e he
    rw [runInbound_normal env st msg now hrem] at he
    dsimp only at he
    rw [hmem] at he
    simp only [storedOf] at he
    obtain ⟨m, _, hm⟩ := List.mem_map.mp he
    rw [← hm]
  · intro s hs hkey m hm hrole
    rw [runInbound_normal env st msg now hrem]
    dsimp only
    rw [hmem]
    simp only [storedOf]
    refine List.mem_map_of_mem _ (List.mem_filter.mpr ⟨?_, bne_iff_ne.mpr hrole⟩)
    refine trimAll_mem (setSession_mem_other (getOrCreate_mem_of_mem _ hs) ?_) hm
    rw [addMessage_key, addMessage_key, getOrCreate_key]
    exact hkey

/-- Witness for C10: an assistant message trimmed from the unrelated
session "telegram:99" is archived under channel_id "telegram42" (the
inbound channel "telegram" concatenated with chatID "42"), which differs
from the session's own key. -/
theorem claim_trimmed_archival_witness :
    ("telegram42", (⟨"assistant", "x", "t0"⟩ : Message)) ∈
      (runInbound envMemOn [otherSession] ⟨"telegram", "u", "42", "hi"⟩ "t").2.stored ∧
    "telegram42" ≠ "telegram:99" :=
  ⟨(claim_trimmed_archival envMemOn [otherSession] ⟨"telegram", "u", "42", "hi"⟩ "t"
      (.ok []) rfl (by decide)).2 otherSession (by decide) (by decide)
      ⟨"assistant", "x", "t0"⟩ (by decide) (by decide),
   by decide⟩

end Picobot
